import Mathlib

/-!
Shallow embedding of `src/exploratory_script.py` (kiva-tool): a script that
queries a GraphQL endpoint for loan listings, paginates, and filters records
by the borrower's age at loan time.

The network is modelled by an abstract `WireResult` (what one HTTP POST to the
endpoint comes back as: a raised exception, or a response with a status code,
a raw text body and an optional parsed JSON body).  All `print` calls and
`time.sleep` calls are modelled as an explicit trace of `Event`s.  Python
`KeyError`/lookup failures that the source does not catch are modelled with
`Except String`.
-/

namespace KivaTool

/-- One element of the `values` array: a Python dict.  Each field is `none`
when the corresponding key is absent from the dict.  `ageAtTimeOfLoan` is
`none` when the key is absent *or* its value is JSON `null` (both make
Python's `dict.get` return `None`). -/
structure Loan where
  typename : Option String
  id : Option String
  name : Option String
  ageAtTimeOfLoan : Option Int
deriving DecidableEq

/-- The dict appended by `get_youth_loans` (lines 78-82):
`{"id": ..., "name": ..., "age": ...}`. -/
structure YouthLoan where
  id : String
  name : String
  age : Int
deriving DecidableEq

/-- The `fundraisingLoans` object of the parsed JSON body; `values` is `none`
when the `values` key is absent. -/
structure FundraisingLoans where
  values : Option (List Loan)
deriving DecidableEq

/-- The `data` object of the parsed JSON body; `fundraisingLoans` is `none`
when that key is absent. -/
structure DataField where
  fundraisingLoans : Option FundraisingLoans
deriving DecidableEq

/-- The parsed JSON body of a response.  `errors` is `some e` when the
top-level `errors` key is present (with `e` an opaque rendering of its
value); `dataField` models the top-level `data` key. -/
structure JsonBody where
  errors : Option String
  dataField : Option DataField
deriving DecidableEq

/-- What one `session.post` to the GraphQL endpoint comes back as:
either an exception raised during the request (connection error, timeout),
or a response carrying an HTTP status code, its raw text, and `some` parsed
JSON body — `none` when `response.json()` raises because the body is not
valid JSON. -/
inductive WireResult where
  | netFail (msg : String)
  | resp (status : Nat) (text : String) (json : Option JsonBody)
deriving DecidableEq

/-- Observable events of a run: every `print` of the script, every call of
`fetch_loans`, and every `time.sleep` (with its duration in seconds, as an
exact rational). -/
inductive Event where
  | scanning (page : Nat)
  | fetchCall (page perPage : Nat)
  | blocked
  | statusLog (code : Nat) (body : String)
  | graphqlError (errs : String)
  | requestFailed (msg : String)
  | sleep (seconds : ℚ)
  | pageHeader (page : Nat)
  | loanDirectLine (id name : String) (age : Option Int)
deriving DecidableEq

/-- The text a print-event writes to standard output (the script's literal
message strings, lines 46, 50-51, 57, 63, 71, 90, 95-99).  `fetchCall` and
`sleep` are not prints and render as the empty string. -/
def Event.render : Event → String
  | .scanning page => "Scanning page " ++ toString page ++ "..."
  | .fetchCall _ _ => ""
  | .blocked => "Blocked (403). Kiva is rejecting automated requests."
  | .statusLog code body => "STATUS: " ++ toString code ++ "\n" ++ body
  | .graphqlError errs => "GraphQL Error: " ++ errs
  | .requestFailed msg => "Request failed: " ++ msg
  | .sleep _ => ""
  | .pageHeader page => "\n--- Page " ++ toString page ++ " ---"
  | .loanDirectLine i n age =>
      "LoanDirect | ID: " ++ i ++ " | Name: " ++ n ++ " | Age: " ++
        (match age with | some a => toString a | none => "None")

/-- Embedding of `fetch_loans` (lines 22-64).  The whole body is wrapped in
`try/except Exception`, so it never raises: it returns the list of loan
records together with the trace of its prints.
* exception during `session.post` → `except` prints "Request failed", `[]`;
* status 403 → prints the block notice, returns `[]`;
* any other non-200 status → prints the status and the raw body, returns `[]`;
* `response.json()` raises (body not JSON) → caught, "Request failed", `[]`;
* top-level `errors` key present → prints "GraphQL Error", returns `[]`;
* missing `data` / `fundraisingLoans` / `values` key → `KeyError` caught by
  the same `except`, "Request failed", `[]`;
* otherwise returns `data["data"]["fundraisingLoans"]["values"]` unchanged. -/
def fetch_loans (w : WireResult) : List Loan × List Event :=
  match w with
  | .netFail msg => ([], [.requestFailed msg])
  | .resp status text json =>
    if status = 403 then ([], [.blocked])
    else if status ≠ 200 then ([], [.statusLog status text])
    else
      match json with
      | none => ([], [.requestFailed "response body is not valid JSON"])
      | some body =>
        match body.errors with
        | some errs => ([], [.graphqlError errs])
        | none =>
          match body.dataField with
          | none => ([], [.requestFailed "KeyError: data"])
          | some d =>
            match d.fundraisingLoans with
            | none => ([], [.requestFailed "KeyError: fundraisingLoans"])
            | some f =>
              match f.values with
              | none => ([], [.requestFailed "KeyError: values"])
              | some vs => (vs, [])

/-- Body of the record loop of `get_youth_loans` (lines 74-82), for one
record.  `loan["__typename"]` raises `KeyError` when the key is absent; the
age is read with `.get` (no raise); the Python guard is
`if age and 18 <= age <= 26` — truthiness first, so `None` (absent or null)
and `0` fail it; only when the guard passes are `loan["id"]` and
`loan["name"]` read (each raising `KeyError` when absent). -/
def processLoan (loan : Loan) : Except String (Option YouthLoan) :=
  match loan.typename with
  | none => .error "KeyError: __typename"
  | some t =>
    if t = "LoanDirect" then
      match loan.ageAtTimeOfLoan with
      | none => .ok none
      | some a =>
        if a ≠ 0 ∧ 18 ≤ a ∧ a ≤ 26 then
          match loan.id with
          | none => .error "KeyError: id"
          | some i =>
            match loan.name with
            | none => .error "KeyError: name"
            | some nm => .ok (some ⟨i, nm, a⟩)
        else .ok none
    else .ok none

/-- The record loop of `get_youth_loans` over one page's list, in order,
appending each match; a `KeyError` aborts the whole run. -/
def processPage : List Loan → Except String (List YouthLoan)
  | [] => .ok []
  | l :: rest =>
    match processLoan l with
    | .error e => .error e
    | .ok y? =>
      match processPage rest with
      | .error e => .error e
      | .ok ys =>
        match y? with
        | some y => .ok (y :: ys)
        | none => .ok ys

/-- The records `fetch_loans` hands the caller for page `p` of environment
`env`. -/
def fetchedValues (env : Nat → WireResult) (p : Nat) : List Loan :=
  (fetch_loans (env p)).1

/-- The page loop of `get_youth_loans` (lines 70-84), `k` pages starting at
page number `page`: print "Scanning page", call `fetch_loans(page=page)`
(with its default `per_page=20`), filter the records, `time.sleep(1.5)`,
next page.  An uncaught `KeyError` aborts the run, losing the accumulator
and all further effects. -/
def runPages (env : Nat → WireResult) : Nat → Nat → Except String (List YouthLoan × List Event)
  | _, 0 => .ok ([], [])
  | page, k + 1 =>
    match processPage (fetchedValues env page) with
    | .error e => .error e
    | .ok ys =>
      match runPages env (page + 1) k with
      | .error e => .error e
      | .ok (rest, tr) =>
        .ok (ys ++ rest,
          [Event.scanning page, Event.fetchCall page 20] ++
            (fetch_loans (env page)).2 ++ [Event.sleep (1.5 : ℚ)] ++ tr)

/-- Embedding of `get_youth_loans` (lines 67-86): pages 1 .. `pages` in increasing order. -/
def get_youth_loans (env : Nat → WireResult) (pages : Nat := 3) :
    Except String (List YouthLoan × List Event) :=
  runPages env 1 pages

/-- Body of the record loop of `debug_age_field` (lines 93-99), over one
page's list: for every record whose `__typename` is `LoanDirect`, print its
`id`, `name` and raw `ageAtTimeOfLoan` (via `.get`, so possibly `None`);
no filtering.  `loan["__typename"]`, `loan['id']`, `loan['name']` raise
`KeyError` when absent. -/
def debugPage : List Loan → Except String (List Event)
  | [] => .ok []
  | l :: rest =>
    match l.typename with
    | none => .error "KeyError: __typename"
    | some t =>
      if t = "LoanDirect" then
        match l.id with
        | none => .error "KeyError: id"
        | some i =>
          match l.name with
          | none => .error "KeyError: name"
          | some nm =>
            match debugPage rest with
            | .error e => .error e
            | .ok evs => .ok (.loanDirectLine i nm l.ageAtTimeOfLoan :: evs)
      else debugPage rest

/-- The page loop of `debug_age_field` (lines 89-99), `k` pages starting at
`page`: print the page header, call `fetch_loans(page=page, per_page=20)`,
print every `LoanDirect` line.  No sleep, no accumulator, no return value
beyond the trace. -/
def debugPages (env : Nat → WireResult) : Nat → Nat → Except String (List Event)
  | _, 0 => .ok []
  | page, k + 1 =>
    match debugPage (fetchedValues env page) with
    | .error e => .error e
    | .ok evs =>
      match debugPages env (page + 1) k with
      | .error e => .error e
      | .ok rest =>
        .ok ([Event.pageHeader page, Event.fetchCall page 20] ++
          (fetch_loans (env page)).2 ++ evs ++ rest)

/-- Embedding of `debug_age_field` (lines 88-99), default `pages=2`. -/
def debug_age_field (env : Nat → WireResult) (pages : Nat := 2) :
    Except String (List Event) :=
  debugPages env 1 pages

/-- The `if __name__ == "__main__"` entry point (lines 102-103):
`debug_age_field(pages=3)`. -/
def main_prog (env : Nat → WireResult) : Except String (List Event) :=
  debug_age_field env 3

/-- A record as typed by the spec's data model (§3): the `__typename`
discriminant is always present, and a `LoanDirect` record also carries its
`id` and `name` keys. -/
def wfLoan (l : Loan) : Bool :=
  match l.typename with
  | none => false
  | some t => (t != "LoanDirect") || (l.id.isSome && l.name.isSome)

/-- Spec-side definition (§3 invariant, §4.2): the YouthLoan a record
projects to — `some` exactly when the discriminant is `LoanDirect` and the
age field is present and within [18, 26] inclusive, carrying `id`, `name`,
`age` verbatim. -/
def youthOf (l : Loan) : Option YouthLoan :=
  match l.typename, l.ageAtTimeOfLoan, l.id, l.name with
  | some t, some a, some i, some nm =>
      if t = "LoanDirect" ∧ 18 ≤ a ∧ a ≤ 26 then some ⟨i, nm, a⟩ else none
  | _, _, _, _ => none

/-- Spec-side definition: the order-preserving youth projection of a list of
records. -/
def youthProjection (ls : List Loan) : List YouthLoan :=
  ls.filterMap youthOf

/-- Concatenation of the records `fetch_loans` returns for `k` consecutive
pages starting at page `p`, in increasing page order. -/
def pagesConcat (env : Nat → WireResult) : Nat → Nat → List Loan
  | _, 0 => []
  | p, k + 1 => fetchedValues env p ++ pagesConcat env (p + 1) k

/-- The event trace `get_youth_loans` produces for `k` pages starting at
page `p` when no `KeyError` aborts it: per page, the "Scanning page" print,
the `fetch_loans` call, the fetch's own prints, then `time.sleep(1.5)`. -/
def driverTrace (env : Nat → WireResult) : Nat → Nat → List Event
  | _, 0 => []
  | p, k + 1 =>
    [Event.scanning p, Event.fetchCall p 20] ++ (fetch_loans (env p)).2 ++
      [Event.sleep (1.5 : ℚ)] ++ driverTrace env (p + 1) k

/-- The diagnostic line a record contributes in `debug_age_field`: every
`LoanDirect` record's `id`, `name` and raw age, no age filtering. -/
def loanLineOf (l : Loan) : Option Event :=
  match l.typename, l.id, l.name with
  | some t, some i, some nm =>
      if t = "LoanDirect" then some (.loanDirectLine i nm l.ageAtTimeOfLoan)
      else none
  | _, _, _ => none

/-- The event trace `debug_age_field` produces for `k` pages starting at
page `p` when no `KeyError` aborts it: per page, the page header, the
`fetch_loans` call, the fetch's own prints, then one line per `LoanDirect`
record.  No sleeps. -/
def debugTrace (env : Nat → WireResult) : Nat → Nat → List Event
  | _, 0 => []
  | p, k + 1 =>
    [Event.pageHeader p, Event.fetchCall p 20] ++ (fetch_loans (env p)).2 ++
      (fetchedValues env p).filterMap loanLineOf ++ debugTrace env (p + 1) k

/-- Is this event an invocation of `fetch_loans`? -/
def isFetchCallEv : Event → Bool
  | .fetchCall _ _ => true
  | .scanning _ => false
  | .blocked => false
  | .statusLog _ _ => false
  | .graphqlError _ => false
  | .requestFailed _ => false
  | .sleep _ => false
  | .pageHeader _ => false
  | .loanDirectLine _ _ _ => false

/-- Is this event a `time.sleep`? -/
def isSleepEv : Event → Bool
  | .sleep _ => true
  | .scanning _ => false
  | .fetchCall _ _ => false
  | .blocked => false
  | .statusLog _ _ => false
  | .graphqlError _ => false
  | .requestFailed _ => false
  | .pageHeader _ => false
  | .loanDirectLine _ _ _ => false

/-- Is this event a diagnostic `LoanDirect` print line? -/
def isLoanLineEv : Event → Bool
  | .loanDirectLine _ _ _ => true
  | .scanning _ => false
  | .fetchCall _ _ => false
  | .blocked => false
  | .statusLog _ _ => false
  | .graphqlError _ => false
  | .requestFailed _ => false
  | .sleep _ => false
  | .pageHeader _ => false

/-- Is this event one of the prints `fetch_loans` itself can emit? -/
def isFetchLogEv : Event → Bool
  | .blocked => true
  | .statusLog _ _ => true
  | .graphqlError _ => true
  | .requestFailed _ => true
  | .scanning _ => false
  | .fetchCall _ _ => false
  | .sleep _ => false
  | .pageHeader _ => false
  | .loanDirectLine _ _ _ => false

/-- A record on which the record loop of `get_youth_loans` raises a
`KeyError`: either `__typename` is absent (line 75 raises on every record),
or the record is a `LoanDirect` that passes the Python age guard
`age and 18 <= age <= 26` but lacks `id` or `name` (lines 79-80 raise only
after the guard passes). -/
def badLoan (l : Loan) : Bool :=
  match l.typename with
  | none => true
  | some t =>
    (t == "LoanDirect") &&
      (match l.ageAtTimeOfLoan with
       | some a => decide (a ≠ 0 ∧ 18 ≤ a ∧ a ≤ 26)
       | none => false) &&
      (l.id.isNone || l.name.isNone)

/-- A `WireResult` on which `fetch_loans` reaches its `except Exception`
handler: either `session.post` itself raised (connection error, timeout),
or the status was 200 and `response.json()` raised (malformed body), or the
body parsed with no `errors` key but one of the `data` /
`fundraisingLoans` / `values` keys is missing (a `KeyError`). -/
def requestPhaseFailure : WireResult → Bool
  | .netFail _ => true
  | .resp status _ json =>
    status == 200 &&
      match json with
      | none => true
      | some body =>
        body.errors.isNone &&
          match body.dataField with
          | none => true
          | some d =>
            match d.fundraisingLoans with
            | none => true
            | some f => f.values.isNone

/-- A concrete 403 response whose body nevertheless parses to JSON that
carries a top-level `errors` field. -/
def resp403WithErrors : WireResult :=
  .resp 403 "forbidden" (some { errors := some "rate limited", dataField := none })

/-- C2: for every response whose HTTP status is not 200, `fetch_loans`
returns the empty list; its single log line is the block notice
"Blocked (403). Kiva is rejecting automated requests." when the status is
403 and the `STATUS:`/body print otherwise, and nothing else happens — in
particular no retry (the trace holds exactly one event and the fetch is
evaluated once). -/
theorem fetch_nonOk_returns_empty (status : Nat) (text : String)
    (json : Option JsonBody) (h : status ≠ 200) :
    (fetch_loans (.resp status text json)).1 = [] ∧
    (fetch_loans (.resp status text json)).2 =
      (if status = 403 then [Event.blocked] else [Event.statusLog status text]) ∧
    Event.render Event.blocked =
      "Blocked (403). Kiva is rejecting automated requests." := by
  unfold fetch_loans
  by_cases h403 : status = 403 <;> simp [h403, h, Event.render]

/-- C2 witness: the theorem applied to a concrete 404 response. -/
theorem fetch_nonOk_returns_empty_witness :
    (404 : Nat) ≠ 200 ∧
    ((fetch_loans (.resp 404 "not found" none)).1 = [] ∧
      (fetch_loans (.resp 404 "not found" none)).2 =
        (if (404 : Nat) = 403 then [Event.blocked]
         else [Event.statusLog 404 "not found"]) ∧
      Event.render Event.blocked =
        "Blocked (403). Kiva is rejecting automated requests.") :=
  ⟨by decide, fetch_nonOk_returns_empty 404 "not found" none (by decide)⟩

/-- C3 counterexample: a 403 response whose parsed JSON body contains a
top-level `errors` field.  `fetch_loans` does return the empty list, but it
logs the block notice, not the errors: the status check comes first
(lines 45-52) and the `errors` check (line 56) is never reached.  So "for
every response whose parsed JSON body contains a top-level errors field,
fetch logs the errors" is false as stated. -/
theorem fetch_errors_field_ignored_cex :
    (fetch_loans resp403WithErrors).1 = [] ∧
    (fetch_loans resp403WithErrors).2 = [Event.blocked] ∧
    Event.graphqlError "rate limited" ∉ (fetch_loans resp403WithErrors).2 := by
  exact ⟨rfl, rfl, by decide⟩

/-- C3 (amended): for every *200* response whose parsed JSON body contains a
top-level `errors` field, `fetch_loans` logs the errors (the
"GraphQL Error" print) and returns the empty list. -/
theorem fetch_graphql_errors_empty (text : String) (body : JsonBody)
    (errs : String) (h : body.errors = some errs) :
    fetch_loans (.resp 200 text (some body)) = ([], [Event.graphqlError errs]) := by
  unfold fetch_loans
  simp [h]

/-- C3 witness: the amended theorem at a concrete 200 response with an
`errors` field. -/
theorem fetch_graphql_errors_empty_witness :
    (JsonBody.mk (some "boom") none).errors = some "boom" ∧
    fetch_loans (.resp 200 "ok" (some (JsonBody.mk (some "boom") none))) =
      ([], [Event.graphqlError "boom"]) :=
  ⟨rfl, fetch_graphql_errors_empty "ok" (JsonBody.mk (some "boom") none) "boom" rfl⟩

/-- C4: every request-phase failure — an exception from `session.post`
(connection error, timeout), a body that is not valid JSON, or a missing
`data`/`fundraisingLoans`/`values` key — is swallowed by the
`except Exception` handler: `fetch_loans` logs a "Request failed" line and
returns the empty list instead of raising (its return type is a plain pair,
not `Except`: no exception reaches the caller). -/
theorem fetch_failure_swallowed (w : WireResult)
    (h : requestPhaseFailure w = true) :
    ∃ msg, fetch_loans w = ([], [Event.requestFailed msg]) := by
  cases w with
  | netFail msg => exact ⟨msg, rfl⟩
  | resp status text json =>
    simp only [requestPhaseFailure, Bool.and_eq_true, beq_iff_eq] at h
    obtain ⟨h200, hrest⟩ := h
    subst h200
    cases json with
    | none => exact ⟨_, rfl⟩
    | some body =>
      simp only [Bool.and_eq_true, Option.isNone_iff_eq_none] at hrest
      obtain ⟨herr, hdata⟩ := hrest
      cases hbd : body.dataField with
      | none =>
        refine ⟨"KeyError: data", ?_⟩
        unfold fetch_loans
        simp [herr, hbd]
      | some d =>
        rw [hbd] at hdata
        simp only [] at hdata
        cases hfl : d.fundraisingLoans with
        | none =>
          refine ⟨"KeyError: fundraisingLoans", ?_⟩
          unfold fetch_loans
          simp [herr, hbd, hfl]
        | some f =>
          rw [hfl] at hdata
          simp only [] at hdata
          cases hv : f.values with
          | none =>
            refine ⟨"KeyError: values", ?_⟩
            unfold fetch_loans
            simp [herr, hbd, hfl, hv]
          | some vs => rw [hv] at hdata; simp at hdata

/-- C4 witness: the theorem at a concrete connection failure. -/
theorem fetch_failure_swallowed_witness :
    requestPhaseFailure (.netFail "connection timed out") = true ∧
    ∃ msg, fetch_loans (.netFail "connection timed out") =
      ([], [Event.requestFailed msg]) :=
  ⟨by decide, fetch_failure_swallowed (.netFail "connection timed out") (by decide)⟩

/-- C5: for every 200 response whose JSON body has no `errors` field and
carries a `values` array under `data.fundraisingLoans`, `fetch_loans`
returns exactly that array, unmodified, and prints nothing. -/
theorem fetch_success_returns_values (text : String) (body : JsonBody)
    (d : DataField) (f : FundraisingLoans) (vs : List Loan)
    (h1 : body.errors = none) (h2 : body.dataField = some d)
    (h3 : d.fundraisingLoans = some f) (h4 : f.values = some vs) :
    fetch_loans (.resp 200 text (some body)) = (vs, []) := by
  unfold fetch_loans
  simp [h1, h2, h3, h4]

/-- C5 witness: the theorem at a concrete successful response carrying one
record. -/
theorem fetch_success_returns_values_witness :
    (JsonBody.mk none (some ⟨some ⟨some [Loan.mk (some "LoanDirect") (some "L1")
        (some "A") (some 22)]⟩⟩)).errors = none ∧
    fetch_loans (.resp 200 "ok" (some (JsonBody.mk none (some ⟨some ⟨some
        [Loan.mk (some "LoanDirect") (some "L1") (some "A") (some 22)]⟩⟩)))) =
      ([Loan.mk (some "LoanDirect") (some "L1") (some "A") (some 22)], []) :=
  ⟨rfl, fetch_success_returns_values "ok" _ _ _ _ rfl rfl rfl rfl⟩

/-- On a record typed by the data model, the record loop body never raises
and produces exactly the spec-side projection. -/
lemma processLoan_wf (l : Loan) (h : wfLoan l = true) :
    processLoan l = .ok (youthOf l) := by
  rcases l with ⟨tn, i?, n?, a?⟩
  cases tn with
  | none => simp [wfLoan] at h
  | some t =>
    by_cases ht : t = "LoanDirect"
    · subst ht
      simp [wfLoan] at h
      obtain ⟨hi, hn⟩ := h
      obtain ⟨i, rfl⟩ := Option.isSome_iff_exists.mp hi
      obtain ⟨nm, rfl⟩ := Option.isSome_iff_exists.mp hn
      cases a? with
      | none => simp [processLoan, youthOf]
      | some a =>
        by_cases hr : 18 ≤ a ∧ a ≤ 26
        · have ha0 : a ≠ 0 := by omega
          simp [processLoan, youthOf, hr, ha0]
        · have : ¬(a ≠ 0 ∧ 18 ≤ a ∧ a ≤ 26) := by omega
          simp [processLoan, youthOf, hr, this]
    · cases a? <;> cases i? <;> cases n? <;> simp [processLoan, youthOf, ht]

/-- One page of the record loop on data-model records: no raise, and the
accumulator grows by exactly the spec-side projection, in order. -/
lemma processPage_wf (ls : List Loan) (h : ls.all wfLoan = true) :
    processPage ls = .ok (youthProjection ls) := by
  induction ls with
  | nil => rfl
  | cons l rest ih =>
    rw [List.all_cons, Bool.and_eq_true] at h
    obtain ⟨hl, hrest⟩ := h
    unfold processPage
    rw [processLoan_wf l hl, ih hrest]
    unfold youthProjection
    rw [List.filterMap_cons]
    cases youthOf l <;> simp

/-- Unfolding equation for `pagesConcat` at a successor page count. -/
lemma pagesConcat_succ (env : Nat → WireResult) (p k : Nat) :
    pagesConcat env p (k + 1) =
      fetchedValues env p ++ pagesConcat env (p + 1) k := rfl

/-- Unfolding equation for `driverTrace` at a successor page count. -/
lemma driverTrace_succ (env : Nat → WireResult) (p k : Nat) :
    driverTrace env p (k + 1) =
      [Event.scanning p, Event.fetchCall p 20] ++ (fetch_loans (env p)).2 ++
        [Event.sleep (1.5 : ℚ)] ++ driverTrace env (p + 1) k := rfl

/-- Unfolding equation for `debugTrace` at a successor page count. -/
lemma debugTrace_succ (env : Nat → WireResult) (p k : Nat) :
    debugTrace env p (k + 1) =
      [Event.pageHeader p, Event.fetchCall p 20] ++ (fetch_loans (env p)).2 ++
        (fetchedValues env p).filterMap loanLineOf ++ debugTrace env (p + 1) k := rfl

/-- The page loop on data-model records: no raise, output is the projection
of the concatenated pages, trace is the per-page blocks. -/
lemma runPages_wf (env : Nat → WireResult) (k : Nat) : ∀ p : Nat,
    (pagesConcat env p k).all wfLoan = true →
    runPages env p k =
      .ok (youthProjection (pagesConcat env p k), driverTrace env p k) := by
  induction k with
  | zero => intro p _; rfl
  | succ k ih =>
    intro p h
    rw [pagesConcat_succ, List.all_append, Bool.and_eq_true] at h
    obtain ⟨hp, hrest⟩ := h
    unfold runPages
    rw [processPage_wf _ hp, ih (p + 1) hrest]
    rw [pagesConcat_succ, driverTrace_succ]
    unfold youthProjection
    simp [List.filterMap_append]

/-- Every print of `fetch_loans` is one of its four message kinds. -/
lemma fetch_log_only (w : WireResult) :
    ((fetch_loans w).2).all isFetchLogEv = true := by
  cases w with
  | netFail msg => rfl
  | resp status text json =>
    unfold fetch_loans
    dsimp only
    split
    · rfl
    · split
      · rfl
      · cases json with
        | none => rfl
        | some body =>
          dsimp only
          split
          · rfl
          · split
            · rfl
            · split
              · rfl
              · split
                · rfl
                · rfl

/-- A fetch print is never a fetch call, a sleep, or a diagnostic line. -/
lemma fetchLog_not_other (e : Event) (h : isFetchLogEv e = true) :
    isFetchCallEv e = false ∧ isSleepEv e = false ∧ isLoanLineEv e = false := by
  cases e <;> simp_all [isFetchLogEv, isFetchCallEv, isSleepEv, isLoanLineEv]

/-- The prints of `fetch_loans` contain no fetch call. -/
lemma fetch_log_filter_fetchCall (w : WireResult) :
    ((fetch_loans w).2).filter isFetchCallEv = [] := by
  rw [List.filter_eq_nil_iff]
  intro e he
  have hall := fetch_log_only w
  rw [List.all_eq_true] at hall
  have := fetchLog_not_other e (by simpa using hall e he)
  simp [this.1]

/-- The prints of `fetch_loans` contain no sleep. -/
lemma fetch_log_filter_sleep (w : WireResult) :
    ((fetch_loans w).2).filter isSleepEv = [] := by
  rw [List.filter_eq_nil_iff]
  intro e he
  have hall := fetch_log_only w
  rw [List.all_eq_true] at hall
  have := fetchLog_not_other e (by simpa using hall e he)
  simp [this.2.1]

/-- The prints of `fetch_loans` contain no diagnostic `LoanDirect` line. -/
lemma fetch_log_filter_loanLine (w : WireResult) :
    ((fetch_loans w).2).filter isLoanLineEv = [] := by
  rw [List.filter_eq_nil_iff]
  intro e he
  have hall := fetch_log_only w
  rw [List.all_eq_true] at hall
  have := fetchLog_not_other e (by simpa using hall e he)
  simp [this.2.2]

/-- The record loop body raises a `KeyError` exactly on `badLoan` records. -/
lemma processLoan_error_iff (l : Loan) :
    (∃ e, processLoan l = .error e) ↔ badLoan l = true := by
  rcases l with ⟨tn, i?, n?, a?⟩
  cases tn with
  | none => simp [processLoan, badLoan]
  | some t =>
    by_cases ht : t = "LoanDirect"
    · subst ht
      cases a? with
      | none => simp [processLoan, badLoan]
      | some a =>
        by_cases hg : a ≠ 0 ∧ 18 ≤ a ∧ a ≤ 26
        · cases i? <;> cases n? <;> simp [processLoan, badLoan, hg]
        · cases i? <;> cases n? <;> simp [processLoan, badLoan, hg]
    · cases a? <;> simp [processLoan, badLoan, ht]

/-- One page of the record loop raises exactly when some record of the page
is a `badLoan`. -/
lemma processPage_error_iff (ls : List Loan) :
    (∃ e, processPage ls = .error e) ↔ ∃ l ∈ ls, badLoan l = true := by
  induction ls with
  | nil => simp [processPage]
  | cons l rest ih =>
    unfold processPage
    cases hpl : processLoan l with
    | error e =>
      simp only [List.mem_cons]
      constructor
      · intro _
        exact ⟨l, Or.inl rfl, (processLoan_error_iff l).mp ⟨e, hpl⟩⟩
      · intro _
        exact ⟨e, rfl⟩
    | ok y? =>
      have hlgood : badLoan l = false := by
        by_contra hb
        obtain ⟨e, he⟩ := (processLoan_error_iff l).mpr (by simpa using hb)
        rw [hpl] at he
        exact Except.noConfusion he
      cases hpr : processPage rest with
      | error e =>
        simp only [List.mem_cons]
        constructor
        · intro _
          obtain ⟨l', hl', hb⟩ := ih.mp ⟨e, hpr⟩
          exact ⟨l', Or.inr hl', hb⟩
        · intro _
          exact ⟨e, rfl⟩
      | ok ys =>
        have hno : ¬∃ l' ∈ rest, badLoan l' = true := by
          intro hex
          obtain ⟨e, he⟩ := ih.mpr hex
          rw [hpr] at he
          exact Except.noConfusion he
        constructor
        · rintro ⟨e, he⟩
          cases y? <;> exact Except.noConfusion he
        · rintro ⟨l', hl', hb⟩
          rcases List.mem_cons.mp hl' with rfl | hmem
          · rw [hlgood] at hb; exact Bool.noConfusion hb
          · exact absurd ⟨l', hmem, hb⟩ hno

/-- The page loop raises exactly when some record of some fetched page is a
`badLoan`; nothing else can raise. -/
lemma runPages_error_iff (env : Nat → WireResult) (k : Nat) : ∀ p : Nat,
    (∃ e, runPages env p k = .error e) ↔
      ∃ l ∈ pagesConcat env p k, badLoan l = true := by
  induction k with
  | zero =>
    intro p
    simp [runPages, pagesConcat]
  | succ k ih =>
    intro p
    rw [pagesConcat_succ]
    unfold runPages
    cases hpp : processPage (fetchedValues env p) with
    | error e =>
      simp only [List.mem_append]
      constructor
      · intro _
        obtain ⟨l, hl, hb⟩ := (processPage_error_iff _).mp ⟨e, hpp⟩
        exact ⟨l, Or.inl hl, hb⟩
      · intro _
        exact ⟨e, rfl⟩
    | ok ys =>
      have hpgood : ¬∃ l ∈ fetchedValues env p, badLoan l = true := by
        intro hex
        obtain ⟨e, he⟩ := (processPage_error_iff _).mpr hex
        rw [hpp] at he
        exact Except.noConfusion he
      cases hrun : runPages env (p + 1) k with
      | error e =>
        simp only [List.mem_append]
        constructor
        · intro _
          obtain ⟨l, hl, hb⟩ := (ih (p + 1)).mp ⟨e, hrun⟩
          exact ⟨l, Or.inr hl, hb⟩
        · intro _
          exact ⟨e, rfl⟩
      | ok out =>
        have hno : ¬∃ l ∈ pagesConcat env (p + 1) k, badLoan l = true := by
          intro hex
          obtain ⟨e, he⟩ := (ih (p + 1)).mpr hex
          rw [hrun] at he
          exact Except.noConfusion he
        constructor
        · rintro ⟨e, he⟩
          exact Except.noConfusion he
        · rintro ⟨l, hl, hb⟩
          rcases List.mem_append.mp hl with hmem | hmem
          · exact absurd ⟨l, hmem, hb⟩ hpgood
          · exact absurd ⟨l, hmem, hb⟩ hno

/-- On data-model records the diagnostic record loop never raises and prints
exactly one line per `LoanDirect` record, in order. -/
lemma debugPage_wf (ls : List Loan) (h : ls.all wfLoan = true) :
    debugPage ls = .ok (ls.filterMap loanLineOf) := by
  induction ls with
  | nil => rfl
  | cons l rest ih =>
    rw [List.all_cons, Bool.and_eq_true] at h
    obtain ⟨hl, hrest⟩ := h
    rcases l with ⟨tn, i?, n?, a?⟩
    cases tn with
    | none => simp [wfLoan] at hl
    | some t =>
      by_cases ht : t = "LoanDirect"
      · subst ht
        simp [wfLoan] at hl
        obtain ⟨hi, hn⟩ := hl
        obtain ⟨i, rfl⟩ := Option.isSome_iff_exists.mp hi
        obtain ⟨nm, rfl⟩ := Option.isSome_iff_exists.mp hn
        unfold debugPage
        rw [ih hrest]
        simp [loanLineOf]
      · unfold debugPage
        rw [List.filterMap_cons]
        simp only [loanLineOf, ht, if_false]
        cases i? <;> cases n? <;> simp [ht, ih hrest]

/-- The diagnostic page loop on data-model records: no raise, trace is the
per-page blocks with no sleeps. -/
lemma debugPages_wf (env : Nat → WireResult) (k : Nat) : ∀ p : Nat,
    (pagesConcat env p k).all wfLoan = true →
    debugPages env p k = .ok (debugTrace env p k) := by
  induction k with
  | zero => intro p _; rfl
  | succ k ih =>
    intro p h
    rw [pagesConcat_succ, List.all_append, Bool.and_eq_true] at h
    obtain ⟨hp, hrest⟩ := h
    unfold debugPages
    rw [debugPage_wf _ hp, ih (p + 1) hrest, debugTrace_succ]

/-- Unfolding equation for `pagesConcat` at page count zero. -/
lemma pagesConcat_zero (env : Nat → WireResult) (p : Nat) :
    pagesConcat env p 0 = [] := rfl

/-- Unfolding equation for `driverTrace` at page count zero. -/
lemma driverTrace_zero (env : Nat → WireResult) (p : Nat) :
    driverTrace env p 0 = [] := rfl

/-- Unfolding equation for `debugTrace` at page count zero. -/
lemma debugTrace_zero (env : Nat → WireResult) (p : Nat) :
    debugTrace env p 0 = [] := rfl

/-- A diagnostic line contributed by a record is always a `loanDirectLine`
event. -/
lemma loanLineOf_isLine (l : Loan) (e : Event) (h : loanLineOf l = some e) :
    isLoanLineEv e = true := by
  unfold loanLineOf at h
  split at h
  · split at h
    · cases h
      rfl
    · exact Option.noConfusion h
  · exact Option.noConfusion h

/-- The diagnostic lines of a page all pass the `loanDirectLine` filter. -/
lemma filterMap_loanLine_filter (ls : List Loan) :
    (ls.filterMap loanLineOf).filter isLoanLineEv = ls.filterMap loanLineOf := by
  rw [List.filter_eq_self]
  intro e he
  obtain ⟨l, _, hl⟩ := List.mem_filterMap.mp he
  exact loanLineOf_isLine l e hl

/-- The diagnostic lines of a page contain no fetch call. -/
lemma filterMap_loanLine_no_fetchCall (ls : List Loan) :
    (ls.filterMap loanLineOf).filter isFetchCallEv = [] := by
  rw [List.filter_eq_nil_iff]
  intro e he
  obtain ⟨l, _, hl⟩ := List.mem_filterMap.mp he
  have := loanLineOf_isLine l e hl
  cases e <;> simp_all [isLoanLineEv, isFetchCallEv]

/-- The diagnostic lines of a page contain no sleep. -/
lemma filterMap_loanLine_no_sleep (ls : List Loan) :
    (ls.filterMap loanLineOf).filter isSleepEv = [] := by
  rw [List.filter_eq_nil_iff]
  intro e he
  obtain ⟨l, _, hl⟩ := List.mem_filterMap.mp he
  have := loanLineOf_isLine l e hl
  cases e <;> simp_all [isLoanLineEv, isSleepEv]

/-- The fetch calls of a 3-page driver trace: pages 1, 2, 3 in order, each
with `per_page = 20`, and nothing else. -/
lemma driverTrace3_filter_fetchCall (env : Nat → WireResult) :
    (driverTrace env 1 3).filter isFetchCallEv =
      [Event.fetchCall 1 20, Event.fetchCall 2 20, Event.fetchCall 3 20] := by
  rw [driverTrace_succ, driverTrace_succ, driverTrace_succ, driverTrace_zero]
  simp [List.filter_append, fetch_log_filter_fetchCall, isFetchCallEv]

/-- The sleeps of a 3-page driver trace: exactly three 1.5-second pauses,
one per page, including after the last. -/
lemma driverTrace3_filter_sleep (env : Nat → WireResult) :
    (driverTrace env 1 3).filter isSleepEv =
      [Event.sleep (1.5 : ℚ), Event.sleep (1.5 : ℚ), Event.sleep (1.5 : ℚ)] := by
  rw [driverTrace_succ, driverTrace_succ, driverTrace_succ, driverTrace_zero]
  simp [List.filter_append, fetch_log_filter_sleep, isSleepEv]

/-- The fetch calls of a 3-page diagnostic trace: identical to the
driver's. -/
lemma debugTrace3_filter_fetchCall (env : Nat → WireResult) :
    (debugTrace env 1 3).filter isFetchCallEv =
      [Event.fetchCall 1 20, Event.fetchCall 2 20, Event.fetchCall 3 20] := by
  rw [debugTrace_succ, debugTrace_succ, debugTrace_succ, debugTrace_zero]
  simp [List.filter_append, fetch_log_filter_fetchCall,
    filterMap_loanLine_no_fetchCall, isFetchCallEv]

/-- The diagnostic lines of a 3-page diagnostic trace: one line per
`LoanDirect` record of the three concatenated pages, in order. -/
lemma debugTrace3_filter_loanLine (env : Nat → WireResult) :
    (debugTrace env 1 3).filter isLoanLineEv =
      (pagesConcat env 1 3).filterMap loanLineOf := by
  rw [debugTrace_succ, debugTrace_succ, debugTrace_succ, debugTrace_zero,
    pagesConcat_succ, pagesConcat_succ, pagesConcat_succ, pagesConcat_zero]
  simp [List.filter_append, List.filterMap_append, fetch_log_filter_loanLine,
    filterMap_loanLine_filter, isLoanLineEv]

/-- A successful 200 response carrying the given records. -/
def okResp (vs : List Loan) : WireResult :=
  .resp 200 ""
    (some { errors := none,
            dataField := some { fundraisingLoans := some { values := some vs } } })

/-- The spec's example records (§8): a 22-year-old `LoanDirect` and a
`LoanBasketItem`. -/
def loanL1 : Loan := ⟨some "LoanDirect", some "L1", some "A", some 22⟩

/-- The spec's example second record. -/
def loanL2 : Loan := ⟨some "LoanBasketItem", some "L2", some "B", none⟩

/-- Environment for the spec's worked example: page 1 returns the two
example records, later pages are empty. -/
def envExample : Nat → WireResult :=
  fun p => if p = 1 then okResp [loanL1, loanL2] else okResp []

/-- Environment in which every page succeeds with no records. -/
def envEmptyPages : Nat → WireResult := fun _ => okResp []

/-- The full trace of `get_youth_loans` over three empty pages. -/
def trEmptyPages : List Event :=
  [.scanning 1, .fetchCall 1 20, .sleep (1.5 : ℚ),
   .scanning 2, .fetchCall 2 20, .sleep (1.5 : ℚ),
   .scanning 3, .fetchCall 3 20, .sleep (1.5 : ℚ)]

/-- A `LoanDirect` record lacking `id` and `name` whose age field is also
absent. -/
def loanNoIdSkipped : Loan := ⟨some "LoanDirect", none, none, none⟩

/-- Environment whose single page carries only `loanNoIdSkipped`. -/
def envC9cex : Nat → WireResult := fun _ => okResp [loanNoIdSkipped]

/-- A record lacking the `__typename` key. -/
def loanNoTypename : Loan := ⟨none, some "L3", some "C", some 20⟩

/-- Environment whose single page carries only `loanNoTypename`. -/
def envC9w : Nat → WireResult := fun _ => okResp [loanNoTypename]

/-- Youth records spread over two pages, mixed with a non-`LoanDirect` and
an out-of-range `LoanDirect`. -/
def envC10w : Nat → WireResult :=
  fun p =>
    if p = 1 then okResp [loanL1, loanL2, ⟨some "LoanDirect", some "L4", some "D", some 30⟩]
    else okResp [⟨some "LoanDirect", some "L5", some "E", some 19⟩]

/-- C1: a record of a fetched page yields a `YouthLoan` in
`get_youth_loans`'s record loop if and only if its `__typename` is
`LoanDirect` and its `ageAtTimeOfLoan` is present with a value in
[18, 26] inclusive.  In particular (by instantiating the right-hand side):
age 18 is included, ages 17 and 27 are excluded, an absent/null age is
excluded, and a record whose discriminant is not `LoanDirect` is excluded
whatever its age field holds. -/
theorem processLoan_youth_iff (l : Loan) (h : wfLoan l = true) :
    (∃ y, processLoan l = .ok (some y)) ↔
      (l.typename = some "LoanDirect" ∧
        ∃ a, l.ageAtTimeOfLoan = some a ∧ 18 ≤ a ∧ a ≤ 26) := by
  rw [processLoan_wf l h]
  rcases l with ⟨tn, i?, n?, a?⟩
  simp only [Except.ok.injEq]
  cases tn with
  | none => simp [wfLoan] at h
  | some t =>
    by_cases ht : t = "LoanDirect"
    · subst ht
      simp [wfLoan] at h
      obtain ⟨i, rfl⟩ := Option.isSome_iff_exists.mp h.1
      obtain ⟨nm, rfl⟩ := Option.isSome_iff_exists.mp h.2
      cases a? with
      | none => simp [youthOf]
      | some a =>
        by_cases hr : 18 ≤ a ∧ a ≤ 26 <;> simp [youthOf, hr]
    · cases a? <;> cases i? <;> cases n? <;> simp [youthOf, ht]

/-- C1 witness: a `LoanDirect` record aged exactly 18 is produced. -/
theorem processLoan_youth_iff_witness :
    wfLoan ⟨some "LoanDirect", some "W1", some "W", some 18⟩ = true ∧
    (∃ y, processLoan ⟨some "LoanDirect", some "W1", some "W", some 18⟩ =
      .ok (some y)) :=
  ⟨by decide,
    (processLoan_youth_iff ⟨some "LoanDirect", some "W1", some "W", some 18⟩
        (by decide)).mpr ⟨rfl, 18, rfl, by decide, by decide⟩⟩

/-- C6 counterexample: over three empty pages the driver's trace holds
*three* 1.5-second sleeps — one after every page fetch, including a
trailing one after the third and final fetch (the trace even ends with it).
The claim's "a pause only between each pair of consecutive fetches and no
other pauses" would put exactly two sleeps, none after the last fetch. -/
theorem driver_trailing_sleep_cex :
    get_youth_loans envEmptyPages 3 = .ok ([], trEmptyPages) ∧
    trEmptyPages.filter isFetchCallEv =
      [Event.fetchCall 1 20, Event.fetchCall 2 20, Event.fetchCall 3 20] ∧
    (trEmptyPages.filter isSleepEv).length = 3 ∧
    ¬(trEmptyPages.filter isSleepEv).length = 2 ∧
    trEmptyPages.getLast? = some (Event.sleep (1.5 : ℚ)) :=
  ⟨rfl, by decide, by decide, by decide, rfl⟩

/-- C6 (amended): `get_youth_loans` over 3 pages calls `fetch_loans`
exactly three times, for pages 1, 2, 3 in increasing order, and sleeps 1.5
time units *after each of the three fetches, including the last* — not only
between consecutive fetches; there are no other fetch calls or sleeps in
the trace. -/
theorem driver_three_pages_trace (env : Nat → WireResult)
    (h : (pagesConcat env 1 3).all wfLoan = true) :
    get_youth_loans env 3 =
      .ok (youthProjection (pagesConcat env 1 3), driverTrace env 1 3) ∧
    driverTrace env 1 3 =
      ([Event.scanning 1, Event.fetchCall 1 20] ++ (fetch_loans (env 1)).2 ++
        [Event.sleep (1.5 : ℚ)]) ++
      (([Event.scanning 2, Event.fetchCall 2 20] ++ (fetch_loans (env 2)).2 ++
        [Event.sleep (1.5 : ℚ)]) ++
      ([Event.scanning 3, Event.fetchCall 3 20] ++ (fetch_loans (env 3)).2 ++
        [Event.sleep (1.5 : ℚ)])) ∧
    (driverTrace env 1 3).filter isFetchCallEv =
      [Event.fetchCall 1 20, Event.fetchCall 2 20, Event.fetchCall 3 20] ∧
    (driverTrace env 1 3).filter isSleepEv =
      [Event.sleep (1.5 : ℚ), Event.sleep (1.5 : ℚ), Event.sleep (1.5 : ℚ)] := by
  refine ⟨runPages_wf env 3 1 h, ?_, driverTrace3_filter_fetchCall env,
    driverTrace3_filter_sleep env⟩
  rw [driverTrace_succ, driverTrace_succ, driverTrace_succ, driverTrace_zero]
  simp [List.append_assoc]

/-- C6 witness: the amended theorem over three empty pages. -/
theorem driver_three_pages_trace_witness :
    (pagesConcat envEmptyPages 1 3).all wfLoan = true ∧
    get_youth_loans envEmptyPages 3 =
      .ok (youthProjection (pagesConcat envEmptyPages 1 3),
        driverTrace envEmptyPages 1 3) :=
  ⟨by decide, (driver_three_pages_trace envEmptyPages (by decide)).1⟩

/-- C7: on the spec's example page — a `LoanDirect` aged 22 and a
`LoanBasketItem` — the driver's output is exactly the singleton
`[{id: "L1", name: "A", age: 22}]`. -/
theorem driver_example_output :
    get_youth_loans envExample 3 =
      .ok ([⟨"L1", "A", 22⟩], driverTrace envExample 1 3) := rfl

/-- C9 counterexample: `envC9cex`'s page holds a `LoanDirect` record that
lacks both `id` and `name`, yet the driver does *not* abort: the record's
age field is absent, so the Python guard `age and 18 <= age <= 26` fails
before `loan["id"]` is ever read, and the run completes normally.  The
claim's "every LoanDirect record that lacks the id or name key aborts the
driver" is therefore false as stated. -/
theorem driver_missing_id_not_fatal_cex :
    loanNoIdSkipped.typename = some "LoanDirect" ∧
    loanNoIdSkipped.id = none ∧ loanNoIdSkipped.name = none ∧
    get_youth_loans envC9cex 1 =
      .ok ([], [Event.scanning 1, Event.fetchCall 1 20, Event.sleep (1.5 : ℚ)]) :=
  ⟨rfl, rfl, rfl, rfl⟩

/-- C9 (amended): the driver's record loop runs under no exception handler.
If any fetched record of pages 1..N lacks `__typename`, or is a
`LoanDirect` that passes the age guard but lacks `id` or `name`
(`badLoan`), `get_youth_loans` aborts with an uncaught lookup error — the
`.error` result carries only the message, so the accumulated results are
lost.  Under the precondition that every fetched record is a data-model
record (`wfLoan`), no error branch is reachable and the run returns
normally. -/
theorem driver_key_errors (env : Nat → WireResult) (N : Nat) :
    ((∃ l ∈ pagesConcat env 1 N, badLoan l = true) →
      ∃ e, get_youth_loans env N = .error e) ∧
    ((pagesConcat env 1 N).all wfLoan = true →
      get_youth_loans env N =
        .ok (youthProjection (pagesConcat env 1 N), driverTrace env 1 N)) := by
  constructor
  · intro hex
    exact (runPages_error_iff env N 1).mpr hex
  · intro h
    exact runPages_wf env N 1 h

/-- C9 witness: a record lacking `__typename` aborts a one-page run. -/
theorem driver_key_errors_witness :
    (∃ l ∈ pagesConcat envC9w 1 1, badLoan l = true) ∧
    (∃ e, get_youth_loans envC9w 1 = .error e) :=
  ⟨⟨loanNoTypename, by decide, by decide⟩,
    (driver_key_errors envC9w 1).1 ⟨loanNoTypename, by decide, by decide⟩⟩

/-- C10: for every page count N and every environment of per-page fetch
results typed by the data model, the driver's output is exactly the
order-preserving youth projection (`id`, `name`, `age` copied verbatim) of
the concatenation of the fetched pages 1..N in increasing page order —
nothing reordered, deduplicated or dropped. -/
theorem driver_output_is_projection (env : Nat → WireResult) (N : Nat)
    (h : (pagesConcat env 1 N).all wfLoan = true) :
    get_youth_loans env N =
      .ok (youthProjection (pagesConcat env 1 N), driverTrace env 1 N) :=
  runPages_wf env N 1 h

/-- C10 witness: two pages with youth records on both, a non-`LoanDirect`
and an over-age record dropped, order preserved. -/
theorem driver_output_is_projection_witness :
    (pagesConcat envC10w 1 2).all wfLoan = true ∧
    get_youth_loans envC10w 2 =
      .ok (youthProjection (pagesConcat envC10w 1 2), driverTrace envC10w 1 2) :=
  ⟨by decide, driver_output_is_projection envC10w 2 (by decide)⟩

/-- C8: the `__main__` entry point runs `debug_age_field(pages=3)`; on
data-model records the diagnostic path performs exactly the same three
per-page fetch calls as the driver (pages 1, 2, 3, `per_page = 20`), and
instead of filtering prints one line per `LoanDirect` record of the fetched
pages — its raw `id`, `name` and age, age unfiltered — returning only that
trace, no sequence of records. -/
theorem main_runs_debug_three_pages (env : Nat → WireResult)
    (h : (pagesConcat env 1 3).all wfLoan = true) :
    main_prog env = debug_age_field env 3 ∧
    debug_age_field env 3 = .ok (debugTrace env 1 3) ∧
    (debugTrace env 1 3).filter isFetchCallEv =
      [Event.fetchCall 1 20, Event.fetchCall 2 20, Event.fetchCall 3 20] ∧
    (driverTrace env 1 3).filter isFetchCallEv =
      (debugTrace env 1 3).filter isFetchCallEv ∧
    (debugTrace env 1 3).filter isLoanLineEv =
      (pagesConcat env 1 3).filterMap loanLineOf ∧
    (debugTrace env 1 3).filter isSleepEv = [] := by
  refine ⟨rfl, debugPages_wf env 3 1 h, debugTrace3_filter_fetchCall env, ?_,
    debugTrace3_filter_loanLine env, ?_⟩
  · rw [driverTrace3_filter_fetchCall env, debugTrace3_filter_fetchCall env]
  · rw [debugTrace_succ, debugTrace_succ, debugTrace_succ, debugTrace_zero]
    simp [List.filter_append, fetch_log_filter_sleep, isSleepEv,
      filterMap_loanLine_no_sleep]

/-- C8 witness: the theorem over the example environment. -/
theorem main_runs_debug_three_pages_witness :
    (pagesConcat envExample 1 3).all wfLoan = true ∧
    main_prog envExample = debug_age_field envExample 3 :=
  ⟨by decide, (main_runs_debug_three_pages envExample (by decide)).1⟩

end KivaTool
